import Mathlib

/-!
Verification of the adaptive difficulty-scoring engine
(`ranking-logic.py` of the `nfl-college-game` repository).

The engine's numeric code is embedded over `ℚ`; Python's `round`
(round-half-to-even) and `int` (truncation toward zero) are modelled
explicitly.  Lists model the entity collection and the feedback store;
the source of randomness of `random.choice` is modelled by an explicit
index parameter `pick`, with `random.choice l` embedded as
`l[pick % l.length]?`.
-/

namespace NFLRanking

/-- Python's built-in `round` on an exact value: round half to even. -/
def pyRound (q : ℚ) : ℤ :=
  if q - ⌊q⌋ < 1/2 then ⌊q⌋
  else if (1 : ℚ)/2 < q - ⌊q⌋ then ⌊q⌋ + 1
  else if ⌊q⌋ % 2 = 0 then ⌊q⌋ else ⌊q⌋ + 1

/-- Python's `int()` on a numeric value: truncation toward zero. -/
def pyTrunc (q : ℚ) : ℤ := if 0 ≤ q then ⌊q⌋ else ⌈q⌉

/-- An entity record, as loaded from the players JSON file.
`draft_round` is only ever consulted by the engine under a
`not player['undrafted']` guard, so it is modelled as a plain integer. -/
structure Player where
  player_name : String
  team : String
  position : String
  age : ℤ
  years_experience : ℕ
  college : List String
  draft_year : ℤ
  draft_round : ℤ
  undrafted : Bool
  games_played : ℕ
  games_started : ℕ
  pro_bowls : ℕ
  all_pros : ℕ
  awards : List String
  difficulty_score : ℚ
deriving Repr, DecidableEq

/-- A feedback record (`record_feedback` builds one per accepted rating). -/
structure Feedback where
  player : Player
  predicted_difficulty : ℚ
  actual_difficulty : ℚ
  features : List ℚ
  error : ℚ
deriving Repr, DecidableEq

/-- `['QB', 'WR', 'RB']` — top skill positions. -/
def topSkillPositions : List String := ["QB", "WR", "RB"]

/-- `['OL', 'OT', 'OG', 'C']` — offensive line. -/
def oLinePositions : List String := ["OL", "OT", "OG", "C"]

/-- `['DL', 'DE', 'DT', 'LB', 'CB', 'S', 'DB']` — defense. -/
def defensePositions : List String := ["DL", "DE", "DT", "LB", "CB", "S", "DB"]

/-- `['QB', 'WR', 'RB', 'TE']` — skill positions (used by the veteran branch). -/
def skillPositions : List String := ["QB", "WR", "RB", "TE"]

/-- `player['pro_bowls'] > 0 or player['all_pros'] > 0 or len(player['awards']) > 0`. -/
def hasAccolades (p : Player) : Prop :=
  0 < p.pro_bowls ∨ 0 < p.all_pros ∨ 0 < p.awards.length

instance (p : Player) : Decidable (hasAccolades p) := by
  unfold hasAccolades; infer_instance

/-- `extract_features`: convert player data into an 18-element numeric vector. -/
def extract_features (p : Player) : List ℚ :=
  [ -- Draft position
    if ¬p.undrafted ∧ p.draft_round = 1 then 1 else 0,
    if ¬p.undrafted ∧ p.draft_round = 2 then 1 else 0,
    if ¬p.undrafted ∧ 3 ≤ p.draft_round then 1 else 0,
    if p.undrafted then 1 else 0,
    -- Position
    if p.position ∈ topSkillPositions then 1 else 0,
    if p.position = "TE" then 1 else 0,
    if p.position ∈ oLinePositions then 1 else 0,
    if p.position ∈ defensePositions then 1 else 0,
    -- Awards and recognition
    (p.pro_bowls : ℚ),
    (p.all_pros : ℚ),
    (p.awards.length : ℚ),
    if hasAccolades p then 1 else 0,
    -- Games played
    (p.games_played : ℚ),
    if 96 ≤ p.games_played then 1 else 0,
    if p.games_played < 32 then 1 else 0,
    -- Veteran with no accolades, non-skill position
    if 96 ≤ p.games_played ∧ ¬hasAccolades p ∧ p.position ∉ skillPositions then 1 else 0,
    -- High draft pick young player
    if p.games_played < 32 ∧ ¬p.undrafted ∧ p.draft_round = 1 then 1 else 0,
    -- Games started ratio (guarded against division by zero)
    if 0 < p.games_played then (p.games_started : ℚ) / (p.games_played : ℚ) else 0 ]

/-- The four position-tier entries of the feature vector
(indices 4–7: top skill, TE, offensive line, defense). -/
def positionEntries (p : Player) : List ℚ :=
  ((extract_features p).drop 4).take 4

/-- Exactly one entry of the list equals 1 (the one-hot property). -/
def exactlyOneOne (l : List ℚ) : Prop := l.count 1 = 1

/-- The additive accumulation of `rule_based_score` before the final mapping
(the sequence of `score += ...` / `score -= ...` statements). -/
def rawRuleScore (p : Player) : ℚ :=
  let s1 : ℚ :=
    if ¬p.undrafted then
      if p.draft_round = 1 then 2
      else if p.draft_round = 2 then 1/2
      else 0
    else -(3/10)
  let s2 : ℚ := s1 +
    (if p.position ∈ topSkillPositions then 1
     else if p.position = "TE" then 1/2
     else if p.position ∈ oLinePositions then -1
     else 0)
  let s3 : ℚ := s2 + (if 0 < p.awards.length then 3/2 else 0)
  let s4 : ℚ := s3 + (if 0 < p.all_pros then 6/5 * ((min p.all_pros 3 : ℕ) : ℚ) else 0)
  let s5 : ℚ := s4 + (if 0 < p.pro_bowls then 3/5 * ((min p.pro_bowls 4 : ℕ) : ℚ) else 0)
  let s6 : ℚ := s5 +
    (if 96 ≤ p.games_played then
       if hasAccolades p then 4/5
       else if p.position ∉ skillPositions then -(7/10)
       else 1/5
     else 0)
  s6 + (if p.games_played < 32 ∧ ¬p.undrafted ∧ p.draft_round = 1 then 6/5 else 0)

/-- The final conversion of the raw score to the 1–4 scale
(first match wins). -/
def scoreToCategory (s : ℚ) : ℚ :=
  if 3 ≤ s then 4
  else if 3/2 ≤ s then 3
  else if 0 ≤ s then 2
  else 1

/-- `rule_based_score`: initial rule-based scoring system (1–4 scale). -/
def rule_based_score (p : Player) : ℚ :=
  scoreToCategory (rawRuleScore p)

/-- A trained regression model, abstracted as a predictor on feature vectors
(`self.model.predict(features)[0]`).  `none` means "not yet trained". -/
def Model : Type := List ℚ → ℚ

/-- `ml_score`: ML-based scoring; falls back to the rule scorer when no
model exists, otherwise clamps the prediction to `[1, 4]` and rounds. -/
def ml_score (model : Option Model) (p : Player) : ℚ :=
  match model with
  | none => rule_based_score p
  | some m =>
      let predicted := m (extract_features p)
      let clamped := max 1 (min 4 predicted)
      (pyRound clamped : ℚ)

/-- `get_current_score`: use rules until at least 15 feedback records
exist, then route through `ml_score`. -/
def get_current_score (fb : List Feedback) (model : Option Model) (p : Player) : ℚ :=
  if fb.length < 15 then rule_based_score p else ml_score model p

/-- `update_all_difficulty_scores`: overwrite every player's
`difficulty_score` with `get_current_score`. -/
def update_all_difficulty_scores (players : List Player) (fb : List Feedback)
    (model : Option Model) : List Player :=
  players.map fun p => { p with difficulty_score := get_current_score fb model p }

/-- The feedback dict built at the top of `record_feedback`. -/
def mkFeedback (p : Player) (user_rating : ℚ) : Feedback :=
  { player := p
    predicted_difficulty := p.difficulty_score
    actual_difficulty := user_rating
    features := extract_features p
    error := |user_rating - p.difficulty_score| }

/-- `weight = 0.7 if len(self.feedback_data) < 30 else 0.5`, evaluated after
the new feedback record has been appended. -/
def blendWeight (fbLen : ℕ) : ℚ := if fbLen < 30 then 7/10 else 5/10

/-- `record_feedback`: append the feedback record, blend the player's
`difficulty_score` with the user rating, and report whether a retrain
fires (`len(self.feedback_data) % 10 == 0`).  Returns
(new feedback store, updated player, retrain-fires flag). -/
def record_feedback (fb : List Feedback) (p : Player) (user_rating : ℚ) :
    List Feedback × Player × Bool :=
  let fb' := fb ++ [mkFeedback p user_rating]
  let weight := blendWeight fb'.length
  let p' := { p with
    difficulty_score :=
      (pyRound (weight * user_rating + (1 - weight) * p.difficulty_score) : ℚ) }
  (fb', p', fb'.length % 10 == 0)

/-- The guard at the top of `train_model`: training only proceeds once at
least 10 feedback records exist. -/
def train_model_proceeds (fb : List Feedback) : Bool := !(fb.length < 10)

/-! ### Active sampler (`get_next_player_to_rate`) -/

/-- The set of names appearing in feedback records:
`{f['player']['player_name'] for f in self.feedback_data}`. -/
def ratedNames (fb : List Feedback) : List String :=
  fb.map fun f => f.player.player_name

/-- `[p for p in self.players if p['player_name'] not in rated_players]`. -/
def unratedPlayers (players : List Player) (fb : List Feedback) : List Player :=
  players.filter fun p => p.player_name ∉ ratedNames fb

/-- The predicted category a player is bucketed under:
`score = int(round(p['difficulty_score'])); score = max(1, min(4, score))`. -/
def predictedCategory (p : Player) : ℤ :=
  max 1 (min 4 (pyRound p.difficulty_score))

/-- The unrated players whose predicted category is `d`
(the list `by_difficulty[d]`). -/
def difficultyBucket (unrated : List Player) (d : ℤ) : List Player :=
  unrated.filter fun p => predictedCategory p = d

/-- `current_distribution[d]`: the number of feedback records whose
actual rating, truncated by `int(...)`, is `d`. -/
def actualDist (fb : List Feedback) (d : ℤ) : ℕ :=
  (fb.filter fun f => pyTrunc f.actual_difficulty = d).length

/-- The iteration order of
`sorted(current_distribution, key=current_distribution.get)`:
Python's sort is stable and the dict keys are `1, 2, 3, 4` in order, so the
result is exactly the keys ordered lexicographically by (count, key). -/
def catLE (dist : ℤ → ℕ) (d e : ℤ) : Prop :=
  dist d < dist e ∨ (dist d = dist e ∧ d ≤ e)

instance (dist : ℤ → ℕ) (d e : ℤ) : Decidable (catLE dist d e) := by
  unfold catLE; infer_instance

/-- The category keys in the order the early-phase loop visits them. -/
def sortedCats (dist : ℤ → ℕ) : List ℤ :=
  List.insertionSort (catLE dist) [1, 2, 3, 4]

/-- `random.choice l`, with the randomness source externalized as `pick`:
the element at index `pick % l.length` (`none` on the empty list, where
Python would raise). -/
def choiceAt (pick : ℕ) (l : List Player) : Option Player :=
  l[pick % l.length]?

/-- `get_next_player_to_rate`: `none` when every player is rated; during
the early phase (fewer than 20 feedback records) pick from the bucket of
the first category, in ascending order of actual-rating count, that has an
unrated candidate; afterwards pick uniformly among the unrated. -/
def get_next_player_to_rate (players : List Player) (fb : List Feedback)
    (pick : ℕ) : Option Player :=
  let unrated := unratedPlayers players fb
  if unrated.isEmpty then none
  else if fb.length < 20 then
    match (sortedCats (actualDist fb)).find?
        (fun d => !(difficultyBucket unrated d).isEmpty) with
    | some d => choiceAt pick (difficultyBucket unrated d)
    | none => choiceAt pick unrated
  else choiceAt pick unrated

/-! ### The Rule Scorer reference computation, stated from the spec (§4.2) -/

/-- The spec's reference additive computation: start at 0.0 and add the
draft-round, position-tier, honors (with the `min` caps), career-length and
young-first-round adjustments, each written as an unconditional summand. -/
def ruleScoreSpecRaw (p : Player) : ℚ :=
  (if p.undrafted then -(3/10)
   else if p.draft_round = 1 then 2
   else if p.draft_round = 2 then 1/2
   else 0)
  + (if p.position ∈ topSkillPositions then 1
     else if p.position = "TE" then 1/2
     else if p.position ∈ oLinePositions then -1
     else 0)
  + (if 0 < p.awards.length then 3/2 else 0)
  + 6/5 * ((min p.all_pros 3 : ℕ) : ℚ)
  + 3/5 * ((min p.pro_bowls 4 : ℕ) : ℚ)
  + (if 96 ≤ p.games_played ∧ hasAccolades p then 4/5 else 0)
  + (if 96 ≤ p.games_played ∧ ¬hasAccolades p ∧ p.position ∉ skillPositions
     then -(7/10) else 0)
  + (if 96 ≤ p.games_played ∧ p.position ∈ skillPositions ∧ ¬hasAccolades p
     then 1/5 else 0)
  + (if p.games_played < 32 ∧ ¬p.undrafted ∧ p.draft_round = 1 then 6/5 else 0)

/-- The spec's reference Rule Scorer: the additive sum mapped through the
first-match-wins thresholds `≥ 3.0 → 4`, `≥ 1.5 → 3`, `≥ 0 → 2`, else `1`. -/
def ruleScoreSpec (p : Player) : ℚ :=
  if 3 ≤ ruleScoreSpecRaw p then 4
  else if 3/2 ≤ ruleScoreSpecRaw p then 3
  else if 0 ≤ ruleScoreSpecRaw p then 2
  else 1

/-! ### Concrete sample data (for witness instantiations) -/

/-- A representative entity record: a first-round quarterback. -/
def samplePlayer : Player :=
  { player_name := "Sample QB"
    team := "Buffalo Bills"
    position := "QB"
    age := 28
    years_experience := 6
    college := ["Wyoming"]
    draft_year := 2018
    draft_round := 1
    undrafted := false
    games_played := 100
    games_started := 98
    pro_bowls := 3
    all_pros := 1
    awards := ["2024 MVP"]
    difficulty_score := 4 }

/-- A kicker: his position is in none of the four position lists that
`extract_features` tests. -/
def kickerPlayer : Player :=
  { player_name := "Sample K"
    team := "Buffalo Bills"
    position := "K"
    age := 27
    years_experience := 4
    college := ["Georgia Southern"]
    draft_year := 2020
    draft_round := 6
    undrafted := false
    games_played := 70
    games_started := 0
    pro_bowls := 0
    all_pros := 0
    awards := []
    difficulty_score := 1 }

/-- Variant of the sample player with a given name and score. -/
def namedPlayer (name : String) (score : ℚ) : Player :=
  { samplePlayer with player_name := name, difficulty_score := score }

/-- 17 feedback records with actual-rating counts 1 ↦ 5, 2 ↦ 2, 3 ↦ 5, 4 ↦ 5. -/
def sampleFeedback : List Feedback :=
  [ mkFeedback (namedPlayer "r01" 1) 1
  , mkFeedback (namedPlayer "r02" 1) 1
  , mkFeedback (namedPlayer "r03" 1) 1
  , mkFeedback (namedPlayer "r04" 1) 1
  , mkFeedback (namedPlayer "r05" 1) 1
  , mkFeedback (namedPlayer "r06" 2) 2
  , mkFeedback (namedPlayer "r07" 2) 2
  , mkFeedback (namedPlayer "r08" 3) 3
  , mkFeedback (namedPlayer "r09" 3) 3
  , mkFeedback (namedPlayer "r10" 3) 3
  , mkFeedback (namedPlayer "r11" 3) 3
  , mkFeedback (namedPlayer "r12" 3) 3
  , mkFeedback (namedPlayer "r13" 4) 4
  , mkFeedback (namedPlayer "r14" 4) 4
  , mkFeedback (namedPlayer "r15" 4) 4
  , mkFeedback (namedPlayer "r16" 4) 4
  , mkFeedback (namedPlayer "r17" 4) 4 ]

/-- Two unrated candidates: one predicted category 2, one category 3. -/
def samplePool : List Player :=
  [namedPlayer "u1" 2, namedPlayer "u2" 3]

/-- A feedback store with 15 records (enough to leave `RULE_ONLY`). -/
def fifteenFeedback : List Feedback :=
  List.replicate 15 (mkFeedback samplePlayer 2)

/-- A trained model abstracted as the constant predictor 3.5. -/
def constModel : Model := fun _ => 7/2

/-- Two unrated candidates for the bucketing comparison: a first-round QB
with persisted score 2, and a third-round QB with persisted score 3 (the
draft-round difference separates their feature vectors). -/
def cexPool : List Player :=
  [namedPlayer "u1" 2, { namedPlayer "u2" 3 with draft_round := 3 }]

/-- A trained model that predicts 3 for a first-round pick and 2 otherwise
(it reads the round-1 flag at the head of the feature vector). -/
def cexModel : Model := fun v => 2 + v.headD 0

/-- The early-phase bucket as the spec words it: unrated entities grouped
by the current predicted category obtained from a fresh
`get_current_score` call — to be compared with `difficultyBucket`, which
the code computes from the rounded persisted `difficulty_score`. -/
def specCurrentBucket (players : List Player) (fb : List Feedback)
    (model : Option Model) (d : ℤ) : List Player :=
  (unratedPlayers players fb).filter fun p =>
    get_current_score fb model p = (d : ℚ)

example : pyRound (17/5) = 3 := by norm_num [pyRound]
example : pyRound (7/2) = 4 := by norm_num [pyRound]
example : pyRound (5/2) = 2 := by norm_num [pyRound]
example : pyRound (-(5/2)) = -2 := by norm_num [pyRound]
example : pyRound (-(7/2)) = -4 := by norm_num [pyRound]
example : pyRound (14/5) = 3 := by norm_num [pyRound]
example : pyTrunc (-(5/2)) = -2 := by
  rw [pyTrunc, if_neg (by norm_num), Int.ceil_eq_iff] <;> norm_num
example : pyTrunc (4) = 4 := by norm_num [pyTrunc]

/-! ### Helper lemmas -/

theorem rawRuleScore_eq_spec (p : Player) : rawRuleScore p = ruleScoreSpecRaw p := by
  unfold rawRuleScore ruleScoreSpecRaw
  have hd : (if ¬p.undrafted then
      if p.draft_round = 1 then (2 : ℚ)
      else if p.draft_round = 2 then 1/2
      else 0
    else -(3/10)) =
    (if p.undrafted then -(3/10)
     else if p.draft_round = 1 then 2
     else if p.draft_round = 2 then 1/2
     else 0) := by
    cases p.undrafted <;> simp
  have ha : (if 0 < p.all_pros then (6 : ℚ)/5 * ((min p.all_pros 3 : ℕ) : ℚ) else 0)
      = 6/5 * ((min p.all_pros 3 : ℕ) : ℚ) := by
    rcases Nat.eq_zero_or_pos p.all_pros with h | h
    · simp [h]
    · simp [h]
  have hb : (if 0 < p.pro_bowls then (3 : ℚ)/5 * ((min p.pro_bowls 4 : ℕ) : ℚ) else 0)
      = 3/5 * ((min p.pro_bowls 4 : ℕ) : ℚ) := by
    rcases Nat.eq_zero_or_pos p.pro_bowls with h | h
    · simp [h]
    · simp [h]
  have hv : (if 96 ≤ p.games_played then
       if hasAccolades p then (4 : ℚ)/5
       else if p.position ∉ skillPositions then -(7/10)
       else 1/5
     else 0) =
     (if 96 ≤ p.games_played ∧ hasAccolades p then 4/5 else 0)
     + (if 96 ≤ p.games_played ∧ ¬hasAccolades p ∧ p.position ∉ skillPositions
        then -(7/10) else 0)
     + (if 96 ≤ p.games_played ∧ p.position ∈ skillPositions ∧ ¬hasAccolades p
        then 1/5 else 0) := by
    by_cases h1 : 96 ≤ p.games_played <;>
      by_cases h2 : hasAccolades p <;>
        by_cases h3 : p.position ∈ skillPositions <;>
          simp [h1, h2, h3]
  rw [hd, ha, hb, hv]
  ring

theorem scoreToCategory_mem (s : ℚ) : scoreToCategory s ∈ ({1, 2, 3, 4} : Set ℚ) := by
  unfold scoreToCategory
  split_ifs <;> simp

theorem rule_based_score_mem (p : Player) :
    rule_based_score p ∈ ({1, 2, 3, 4} : Set ℚ) :=
  scoreToCategory_mem _

theorem intCast_mem_scoreSet {n : ℤ} (h1 : 1 ≤ n) (h4 : n ≤ 4) :
    (n : ℚ) ∈ ({1, 2, 3, 4} : Set ℚ) := by
  interval_cases n <;> norm_num

theorem pyRound_bounds {x : ℚ} (h1 : 1 ≤ x) (h4 : x ≤ 4) :
    1 ≤ pyRound x ∧ pyRound x ≤ 4 := by
  have hf1 : (1 : ℤ) ≤ ⌊x⌋ := by
    rw [Int.le_floor]; exact_mod_cast h1
  have hf4 : ⌊x⌋ ≤ 4 := by
    have h := Int.floor_mono (α := ℚ) h4
    simpa using h
  have hup : ¬(x - ⌊x⌋ < 1/2) → ⌊x⌋ + 1 ≤ 4 := by
    intro hlt
    have hhalf : (1 : ℚ)/2 ≤ x - ⌊x⌋ := le_of_not_lt hlt
    have h7 : (⌊x⌋ : ℚ) < 4 := by linarith
    have h3 : ⌊x⌋ < 4 := by exact_mod_cast h7
    omega
  unfold pyRound
  split_ifs with hlt hgt heven
  · exact ⟨hf1, hf4⟩
  · exact ⟨by omega, hup hlt⟩
  · exact ⟨hf1, hf4⟩
  · exact ⟨by omega, hup hlt⟩

theorem pyRound_mem {x : ℚ} (h1 : 1 ≤ x) (h4 : x ≤ 4) :
    (pyRound x : ℚ) ∈ ({1, 2, 3, 4} : Set ℚ) :=
  intCast_mem_scoreSet (pyRound_bounds h1 h4).1 (pyRound_bounds h1 h4).2

theorem ml_score_mem (model : Option Model) (p : Player) :
    ml_score model p ∈ ({1, 2, 3, 4} : Set ℚ) := by
  cases model with
  | none => exact rule_based_score_mem p
  | some m =>
      show (pyRound (max 1 (min 4 (m (extract_features p)))) : ℚ) ∈ _
      exact pyRound_mem (le_max_left _ _) (max_le (by norm_num) (min_le_left _ _))

theorem get_current_score_mem (fb : List Feedback) (model : Option Model) (p : Player) :
    get_current_score fb model p ∈ ({1, 2, 3, 4} : Set ℚ) := by
  unfold get_current_score
  split_ifs
  · exact rule_based_score_mem p
  · exact ml_score_mem model p

theorem extract_features_length (p : Player) : (extract_features p).length = 18 := rfl

theorem pyTrunc_natCast (n : ℕ) : pyTrunc (n : ℚ) = n := by
  unfold pyTrunc
  rw [if_pos (by positivity)]
  exact Int.floor_natCast n

theorem rawRuleScore_mono_allpros (p : Player) (k k' : ℕ) (h : k ≤ k') :
    rawRuleScore { p with all_pros := k } ≤ rawRuleScore { p with all_pros := k' } := by
  unfold rawRuleScore hasAccolades
  dsimp only
  have h4 : (if 0 < k then (6 : ℚ)/5 * ((min k 3 : ℕ) : ℚ) else 0)
      ≤ (if 0 < k' then (6 : ℚ)/5 * ((min k' 3 : ℕ) : ℚ) else 0) := by
    by_cases hk : 0 < k
    · have hk2 : 0 < k' := by omega
      rw [if_pos hk, if_pos hk2]
      have hmin : ((min k 3 : ℕ) : ℚ) ≤ ((min k' 3 : ℕ) : ℚ) := by
        exact_mod_cast (by omega : min k 3 ≤ min k' 3)
      linarith
    · rw [if_neg hk]
      split_ifs with hk2
      · positivity
      · exact le_rfl
  have h6 : (if 96 ≤ p.games_played then
        (if 0 < p.pro_bowls ∨ 0 < k ∨ 0 < p.awards.length then (4 : ℚ)/5
         else if p.position ∉ skillPositions then -(7/10)
         else 1/5)
      else 0)
      ≤ (if 96 ≤ p.games_played then
        (if 0 < p.pro_bowls ∨ 0 < k' ∨ 0 < p.awards.length then (4 : ℚ)/5
         else if p.position ∉ skillPositions then -(7/10)
         else 1/5)
      else 0) := by
    split_ifs <;> first | omega | norm_num
  exact add_le_add (add_le_add (add_le_add (add_le_add le_rfl h4) le_rfl) h6) le_rfl

theorem scoreToCategory_mono {x y : ℚ} (h : x ≤ y) :
    scoreToCategory x ≤ scoreToCategory y := by
  unfold scoreToCategory
  split_ifs <;> linarith

/-! ### Sampler helper lemmas -/

theorem catLE_total (dist : ℤ → ℕ) (d e : ℤ) : catLE dist d e ∨ catLE dist e d := by
  unfold catLE; omega

theorem catLE_trans (dist : ℤ → ℕ) {d e f : ℤ} (h1 : catLE dist d e)
    (h2 : catLE dist e f) : catLE dist d f := by
  unfold catLE at *; omega

theorem catLE_antisymm (dist : ℤ → ℕ) {d e : ℤ} (h1 : catLE dist d e)
    (h2 : catLE dist e d) : d = e := by
  unfold catLE at *; omega

theorem mem_sortedCats {dist : ℤ → ℕ} {d : ℤ} :
    d ∈ sortedCats dist ↔ d ∈ ([1, 2, 3, 4] : List ℤ) :=
  (List.perm_insertionSort _ _).mem_iff

theorem sortedCats_sorted (dist : ℤ → ℕ) : (sortedCats dist).Sorted (catLE dist) := by
  haveI : IsTotal ℤ (catLE dist) := ⟨catLE_total dist⟩
  haveI : IsTrans ℤ (catLE dist) := ⟨fun _ _ _ => catLE_trans dist⟩
  exact List.sorted_insertionSort _ _

theorem find?_eq_some_of_min {dist : ℤ → ℕ} (q : ℤ → Bool) (d : ℤ) :
    ∀ l : List ℤ, l.Pairwise (catLE dist) → d ∈ l → q d = true →
      (∀ e ∈ l, q e = true → catLE dist d e) → l.find? q = some d := by
  intro l
  induction l with
  | nil => intro _ hd; simp at hd
  | cons x xs ih =>
      intro hpw hd hq hmin
      rcases List.pairwise_cons.mp hpw with ⟨hx, hxs⟩
      by_cases hqx : q x = true
      · have hdx : d = x := by
          rcases List.mem_cons.mp hd with h | h
          · exact h
          · exact catLE_antisymm dist (hmin x (List.mem_cons_self x xs) hqx) (hx d h)
        rw [List.find?_cons_of_pos _ hqx, hdx]
      · have hd' : d ∈ xs := by
          rcases List.mem_cons.mp hd with h | h
          · exact absurd (h ▸ hq) hqx
          · exact h
        rw [List.find?_cons_of_neg _ (by simpa using hqx)]
        exact ih hxs hd' hq fun e he hqe => hmin e (List.mem_cons_of_mem _ he) hqe

theorem choiceAt_mem {l : List Player} (pick : ℕ) (h : l ≠ []) :
    ∃ q, choiceAt pick l = some q ∧ q ∈ l := by
  have hlen : 0 < l.length := List.length_pos.mpr h
  have hlt : pick % l.length < l.length := Nat.mod_lt _ hlen
  exact ⟨l.get ⟨pick % l.length, hlt⟩,
    by simp [choiceAt, List.getElem?_eq_getElem hlt], List.get_mem l _ hlt⟩

theorem exists_choiceAt_eq {l : List Player} {x : Player} (h : x ∈ l) :
    ∃ pick, choiceAt pick l = some x := by
  rcases List.mem_iff_get.mp h with ⟨⟨i, hi⟩, rfl⟩
  exact ⟨i, by simp [choiceAt, Nat.mod_eq_of_lt hi, List.getElem?_eq_getElem hi]⟩

theorem choiceAt_mem_of_eq {l : List Player} {pick : ℕ} {q : Player}
    (h : choiceAt pick l = some q) : q ∈ l := by
  unfold choiceAt at h
  have := List.getElem?_mem h
  exact this

theorem mem_unratedPlayers {players : List Player} {fb : List Feedback} {p : Player} :
    p ∈ unratedPlayers players fb ↔ p ∈ players ∧ p.player_name ∉ ratedNames fb := by
  unfold unratedPlayers
  simp [List.mem_filter]

theorem unratedPlayers_eq_nil_iff (players : List Player) (fb : List Feedback) :
    unratedPlayers players fb = [] ↔ ∀ p ∈ players, p.player_name ∈ ratedNames fb := by
  unfold unratedPlayers
  rw [List.filter_eq_nil_iff]
  simp

theorem difficultyBucket_subset {unrated : List Player} {d : ℤ} {p : Player}
    (h : p ∈ difficultyBucket unrated d) : p ∈ unrated :=
  (List.mem_filter.mp h).1

theorem get_next_mem (players : List Player) (fb : List Feedback) (pick : ℕ)
    (h : unratedPlayers players fb ≠ []) :
    ∃ q, get_next_player_to_rate players fb pick = some q ∧
      q ∈ unratedPlayers players fb := by
  unfold get_next_player_to_rate
  rw [if_neg (by simpa [List.isEmpty_iff] using h)]
  by_cases h20 : fb.length < 20
  · rw [if_pos h20]
    rcases hfind : (sortedCats (actualDist fb)).find?
        (fun d => !(difficultyBucket (unratedPlayers players fb) d).isEmpty) with _ | d
    · simpa [hfind] using choiceAt_mem pick h
    · have hbne : difficultyBucket (unratedPlayers players fb) d ≠ [] := by
        have := List.find?_some hfind
        simpa [List.isEmpty_iff] using this
      rcases choiceAt_mem pick hbne with ⟨q, hq, hqmem⟩
      exact ⟨q, by simp [hfind, hq], difficultyBucket_subset hqmem⟩
  · rw [if_neg h20]
    exact choiceAt_mem pick h

/-- C6: for every entity set and feedback history (with well-formed ratings,
since an out-of-range rating would make the early-phase bucketing raise
instead of returning), the sampler never returns an entity that already has
a feedback record, and it returns the exhaustion signal `none` if and only
if every entity in the set has been rated. -/
theorem sampler_domain_and_exhaustion (players : List Player) (fb : List Feedback)
    (pick : ℕ)
    (hvalid : ∀ f ∈ fb, pyTrunc f.actual_difficulty ∈ ([1, 2, 3, 4] : List ℤ)) :
    (get_next_player_to_rate players fb pick = none ↔
      ∀ p ∈ players, p.player_name ∈ ratedNames fb)
    ∧ ∀ q, get_next_player_to_rate players fb pick = some q →
        q ∈ players ∧ ∀ f ∈ fb, f.player.player_name ≠ q.player_name := by
  constructor
  · constructor
    · intro hnone
      by_contra hnot
      have hne : unratedPlayers players fb ≠ [] := by
        intro hnil
        exact hnot ((unratedPlayers_eq_nil_iff players fb).mp hnil)
      rcases get_next_mem players fb pick hne with ⟨q, hq, _⟩
      rw [hnone] at hq
      exact Option.noConfusion hq
    · intro hall
      have hnil : unratedPlayers players fb = [] :=
        (unratedPlayers_eq_nil_iff players fb).mpr hall
      unfold get_next_player_to_rate
      rw [if_pos (by simp [hnil])]
  · intro q hq
    have hne : unratedPlayers players fb ≠ [] := by
      intro hnil
      unfold get_next_player_to_rate at hq
      rw [if_pos (by simp [hnil])] at hq
      exact Option.noConfusion hq
    rcases get_next_mem players fb pick hne with ⟨q', hq', hmem⟩
    rw [hq] at hq'
    cases hq'
    rcases mem_unratedPlayers.mp hmem with ⟨hin, hnames⟩
    refine ⟨hin, fun f hf heq => hnames ?_⟩
    exact heq ▸ List.mem_map.mpr ⟨f, hf, rfl⟩

/-- C5 (amended): with fewer than 20 feedback records, the buckets are
formed from each unrated entity's rounded persisted `difficulty_score`
clamped to [1, 4] (`difficultyBucket`, line 210 of the code) — not from a
fresh `get_current_score` call as the original claim states.  If category
`d` has an unrated candidate under that bucketing and is first among
`1, 2, 3, 4` in ascending order of actual-rating count (ties broken toward
the smaller category, as Python's stable `sorted` does), then every draw
comes from category `d`'s unrated pool, and every member of that pool is
drawn for some value of the randomness source. -/
theorem early_sampler_policy (players : List Player) (fb : List Feedback)
    (pick : ℕ) (d : ℤ)
    (h20 : fb.length < 20)
    (hd : d ∈ ([1, 2, 3, 4] : List ℤ))
    (hne : difficultyBucket (unratedPlayers players fb) d ≠ [])
    (hmin : ∀ e ∈ ([1, 2, 3, 4] : List ℤ),
      difficultyBucket (unratedPlayers players fb) e ≠ [] →
        catLE (actualDist fb) d e) :
    (∃ q, get_next_player_to_rate players fb pick = some q ∧
       q ∈ difficultyBucket (unratedPlayers players fb) d)
    ∧ ∀ x ∈ difficultyBucket (unratedPlayers players fb) d,
       ∃ pk, get_next_player_to_rate players fb pk = some x := by
  have hune : unratedPlayers players fb ≠ [] := by
    intro hnil
    rcases List.exists_mem_of_ne_nil _ hne with ⟨x, hx⟩
    have := difficultyBucket_subset hx
    simp [hnil] at this
  have hfind : (sortedCats (actualDist fb)).find?
      (fun e => !(difficultyBucket (unratedPlayers players fb) e).isEmpty) = some d := by
    apply find?_eq_some_of_min _ d _ (sortedCats_sorted (actualDist fb))
    · exact mem_sortedCats.mpr hd
    · simpa [List.isEmpty_iff] using hne
    · intro e he hqe
      exact hmin e (mem_sortedCats.mp he) (by simpa [List.isEmpty_iff] using hqe)
  have hred : ∀ pk, get_next_player_to_rate players fb pk =
      choiceAt pk (difficultyBucket (unratedPlayers players fb) d) := by
    intro pk
    unfold get_next_player_to_rate
    rw [if_neg (by simpa [List.isEmpty_iff] using hune), if_pos h20, hfind]
  constructor
  · rcases choiceAt_mem pick hne with ⟨q, hq, hqmem⟩
    exact ⟨q, (hred pick).trans hq, hqmem⟩
  · intro x hx
    rcases exists_choiceAt_eq hx with ⟨pk, hpk⟩
    exact ⟨pk, (hred pk).trans hpk⟩

/-- C5 counterexample: 17 feedback records (actual-rating counts 1 ↦ 5,
2 ↦ 2, 3 ↦ 5, 4 ↦ 5) put the engine in the model-routed window
15 ≤ count < 20 of the early phase.  With a trained model present,
bucketing via `get_current_score` — as the claim states — places exactly
one candidate in category 2, the category with fewest actual ratings; yet
the sampler returns the other candidate, which is not in that pool,
because the code buckets by the rounded persisted `difficulty_score`, not
via `get_current_score`. -/
theorem early_sampler_bucketing_counterexample :
    15 ≤ sampleFeedback.length ∧ sampleFeedback.length < 20
    ∧ actualDist sampleFeedback 1 = 5 ∧ actualDist sampleFeedback 2 = 2
    ∧ actualDist sampleFeedback 3 = 5 ∧ actualDist sampleFeedback 4 = 5
    ∧ specCurrentBucket cexPool sampleFeedback (some cexModel) 2
        = [{ namedPlayer "u2" 3 with draft_round := 3 }]
    ∧ get_next_player_to_rate cexPool sampleFeedback 0 = some (namedPlayer "u1" 2)
    ∧ namedPlayer "u1" 2 ∉
        specCurrentBucket cexPool sampleFeedback (some cexModel) 2 := by
  have hunr : unratedPlayers cexPool sampleFeedback = cexPool := by
    norm_num [unratedPlayers, ratedNames, cexPool, sampleFeedback, mkFeedback,
      namedPlayer, samplePlayer]
    decide
  have hd1 : actualDist sampleFeedback 1 = 5 := by
    norm_num [actualDist, sampleFeedback, mkFeedback, namedPlayer, samplePlayer, pyTrunc]
  have hd2 : actualDist sampleFeedback 2 = 2 := by
    norm_num [actualDist, sampleFeedback, mkFeedback, namedPlayer, samplePlayer, pyTrunc]
  have hd3 : actualDist sampleFeedback 3 = 5 := by
    norm_num [actualDist, sampleFeedback, mkFeedback, namedPlayer, samplePlayer, pyTrunc]
  have hd4 : actualDist sampleFeedback 4 = 5 := by
    norm_num [actualDist, sampleFeedback, mkFeedback, namedPlayer, samplePlayer, pyTrunc]
  have hs1 : get_current_score sampleFeedback (some cexModel) (namedPlayer "u1" 2) = 3 := by
    unfold get_current_score ml_score
    rw [if_neg (by norm_num [sampleFeedback])]
    norm_num [cexModel, extract_features, namedPlayer, samplePlayer, pyRound]
  have hs2 : get_current_score sampleFeedback (some cexModel)
      { namedPlayer "u2" 3 with draft_round := 3 } = 2 := by
    unfold get_current_score ml_score
    rw [if_neg (by norm_num [sampleFeedback])]
    norm_num [cexModel, extract_features, namedPlayer, samplePlayer, pyRound]
  have hspec : specCurrentBucket cexPool sampleFeedback (some cexModel) 2
      = [{ namedPlayer "u2" 3 with draft_round := 3 }] := by
    unfold specCurrentBucket
    rw [hunr]
    norm_num [cexPool, List.filter_cons, hs1, hs2]
  have hcode : difficultyBucket (unratedPlayers cexPool sampleFeedback) 2
      = [namedPlayer "u1" 2] := by
    unfold difficultyBucket
    rw [hunr]
    norm_num [cexPool, List.filter_cons, predictedCategory, namedPlayer,
      samplePlayer, pyRound]
  have hb1 : difficultyBucket (unratedPlayers cexPool sampleFeedback) 1 = [] := by
    unfold difficultyBucket
    rw [hunr]
    norm_num [cexPool, List.filter_cons, predictedCategory, namedPlayer,
      samplePlayer, pyRound]
  have hb4 : difficultyBucket (unratedPlayers cexPool sampleFeedback) 4 = [] := by
    unfold difficultyBucket
    rw [hunr]
    norm_num [cexPool, List.filter_cons, predictedCategory, namedPlayer,
      samplePlayer, pyRound]
  have hfind : (sortedCats (actualDist sampleFeedback)).find?
      (fun e => !(difficultyBucket (unratedPlayers cexPool sampleFeedback) e).isEmpty)
      = some 2 := by
    apply find?_eq_some_of_min _ 2 _ (sortedCats_sorted (actualDist sampleFeedback))
    · exact mem_sortedCats.mpr (by norm_num)
    · simp [hcode]
    · intro e he hqe
      have he4 := mem_sortedCats.mp he
      fin_cases he4
      · rw [hb1] at hqe
        simp at hqe
      · exact Or.inr ⟨rfl, le_rfl⟩
      · exact Or.inl (by rw [hd2, hd3]; norm_num)
      · rw [hb4] at hqe
        simp at hqe
  have hnext : get_next_player_to_rate cexPool sampleFeedback 0
      = some (namedPlayer "u1" 2) := by
    unfold get_next_player_to_rate
    rw [if_neg (by rw [hunr]; simp [cexPool]),
      if_pos (by norm_num [sampleFeedback]), hfind]
    show choiceAt 0 (difficultyBucket (unratedPlayers cexPool sampleFeedback) 2)
      = some (namedPlayer "u1" 2)
    rw [hcode]
    rfl
  have hnotin : namedPlayer "u1" 2 ∉
      specCurrentBucket cexPool sampleFeedback (some cexModel) 2 := by
    rw [hspec]
    simp [namedPlayer, samplePlayer]
  exact ⟨by norm_num [sampleFeedback], by norm_num [sampleFeedback],
    hd1, hd2, hd3, hd4, hspec, hnext, hnotin⟩

theorem positionEntries_cases (p : Player) :
    (p.position ∈ topSkillPositions ∧ positionEntries p = [1, 0, 0, 0]) ∨
    (p.position = "TE" ∧ positionEntries p = [0, 1, 0, 0]) ∨
    (p.position ∈ oLinePositions ∧ positionEntries p = [0, 0, 1, 0]) ∨
    (p.position ∈ defensePositions ∧ positionEntries p = [0, 0, 0, 1]) ∨
    (p.position ∉ topSkillPositions ∧ p.position ≠ "TE" ∧
      p.position ∉ oLinePositions ∧ p.position ∉ defensePositions ∧
      positionEntries p = [0, 0, 0, 0]) := by
  by_cases h1 : p.position ∈ topSkillPositions
  · refine Or.inl ⟨h1, ?_⟩
    rcases (by simpa [topSkillPositions] using h1 :
      p.position = "QB" ∨ p.position = "WR" ∨ p.position = "RB") with h | h | h <;>
      simp [positionEntries, extract_features, h, topSkillPositions,
        oLinePositions, defensePositions]
  · by_cases h2 : p.position = "TE"
    · refine Or.inr (Or.inl ⟨h2, ?_⟩)
      simp [positionEntries, extract_features, h2, topSkillPositions,
        oLinePositions, defensePositions]
    · by_cases h3 : p.position ∈ oLinePositions
      · refine Or.inr (Or.inr (Or.inl ⟨h3, ?_⟩))
        rcases (by simpa [oLinePositions] using h3 :
          p.position = "OL" ∨ p.position = "OT" ∨ p.position = "OG" ∨
            p.position = "C") with h | h | h | h <;>
          simp [positionEntries, extract_features, h, topSkillPositions,
            oLinePositions, defensePositions]
      · by_cases h4 : p.position ∈ defensePositions
        · refine Or.inr (Or.inr (Or.inr (Or.inl ⟨h4, ?_⟩)))
          rcases (by simpa [defensePositions] using h4 :
            p.position = "DL" ∨ p.position = "DE" ∨ p.position = "DT" ∨
              p.position = "LB" ∨ p.position = "CB" ∨ p.position = "S" ∨
              p.position = "DB") with h | h | h | h | h | h | h <;>
            simp [positionEntries, extract_features, h, topSkillPositions,
              oLinePositions, defensePositions]
        · exact Or.inr (Or.inr (Or.inr (Or.inr ⟨h1, h2, h3, h4,
            by simp [positionEntries, extract_features, h1, h2, h3, h4]⟩)))

/-- C7 counterexample: the feature vector of a kicker (`position = "K"`) has
its four position-tier entries all 0 — the fourth entry tests the specific
defense list, not "other" — so "exactly one of the four is 1 for every
valid entity" is false at this input. -/
theorem feature_onehot_counterexample :
    positionEntries kickerPlayer = [0, 0, 0, 0] ∧
    ¬ exactlyOneOne (positionEntries kickerPlayer) := by
  have hv : positionEntries kickerPlayer = [0, 0, 0, 0] := by
    simp [positionEntries, extract_features, kickerPlayer,
      topSkillPositions, oLinePositions, defensePositions]
  refine ⟨hv, ?_⟩
  unfold exactlyOneOne
  rw [hv]
  norm_num [List.count_cons]

/-- C7 (amended): `extract_features` always returns exactly 18 elements,
and the four position-tier entries are 0/1-valued with at most one equal
to 1; exactly one of them is 1 precisely when the position belongs to one
of the four recognized lists (top skill, TE, offensive line, defense) —
a position outside all four lists (such as a kicker) yields all zeros. -/
theorem feature_shape_and_position_encoding (p : Player) :
    (extract_features p).length = 18 ∧
    (exactlyOneOne (positionEntries p) ↔
      (p.position ∈ topSkillPositions ∨ p.position = "TE" ∨
       p.position ∈ oLinePositions ∨ p.position ∈ defensePositions)) ∧
    (positionEntries p).count 1 ≤ 1 := by
  refine ⟨rfl, ?_, ?_⟩
  · unfold exactlyOneOne
    rcases positionEntries_cases p with ⟨h, hv⟩ | ⟨h, hv⟩ | ⟨h, hv⟩ | ⟨h, hv⟩ |
        ⟨h1, h2, h3, h4, hv⟩ <;> rw [hv]
    · norm_num [List.count_cons, h]
    · norm_num [List.count_cons, h]
    · norm_num [List.count_cons, h]
    · norm_num [List.count_cons, h]
    · norm_num [List.count_cons, h1, h2, h3, h4]
  · rcases positionEntries_cases p with ⟨h, hv⟩ | ⟨h, hv⟩ | ⟨h, hv⟩ | ⟨h, hv⟩ |
        ⟨h1, h2, h3, h4, hv⟩ <;> rw [hv] <;> norm_num [List.count_cons]

/-- C4: for every entity record the Rule Scorer's output equals the spec's
reference computation (neutral 0.0 plus the stated additive adjustments,
mapped through the first-match-wins thresholds), and lies in
{1.0, 2.0, 3.0, 4.0}. -/
theorem rule_scorer_correct (p : Player) :
    rule_based_score p = ruleScoreSpec p ∧
      rule_based_score p ∈ ({1, 2, 3, 4} : Set ℚ) := by
  refine ⟨?_, rule_based_score_mem p⟩
  unfold rule_based_score ruleScoreSpec scoreToCategory
  rw [rawRuleScore_eq_spec]

/-- C8: the Rule Scorer is monotone non-decreasing in the primary-honor
(All-Pro) count, all other fields held fixed. -/
theorem rule_scorer_monotone_primary_honors (p : Player) (k k' : ℕ) (h : k ≤ k') :
    rule_based_score { p with all_pros := k } ≤
      rule_based_score { p with all_pros := k' } :=
  scoreToCategory_mono (rawRuleScore_mono_allpros p k k' h)

/-- C9: the games-started ratio (the final feature) is 0 when
`games_played = 0` and `games_started / games_played` otherwise; the
division is always guarded, never performed with a zero denominator. -/
theorem games_started_ratio_safe (p : Player) :
    (p.games_played = 0 → (extract_features p).getLast? = some 0) ∧
    (0 < p.games_played →
      (extract_features p).getLast? =
        some ((p.games_started : ℚ) / (p.games_played : ℚ))) := by
  constructor <;> intro h <;>
    simp [extract_features, h, List.getLast?]

/-- C1: `get_current_score` routing: with fewer than 15 feedback records the
Rule Scorer's output is returned; with at least 15, a trained model's
prediction on the entity's 18-element feature vector is clamped to [1, 4]
and rounded, and with no model the Rule Scorer's output is still
returned. -/
theorem get_current_score_routing (fb : List Feedback) (model : Option Model)
    (p : Player) :
    (fb.length < 15 → get_current_score fb model p = rule_based_score p)
    ∧ (15 ≤ fb.length → ∀ m, model = some m →
        get_current_score fb model p =
          (pyRound (max 1 (min 4 (m (extract_features p)))) : ℚ)
        ∧ (extract_features p).length = 18)
    ∧ (15 ≤ fb.length → model = none →
        get_current_score fb model p = rule_based_score p) := by
  refine ⟨?_, ?_, ?_⟩
  · intro h
    unfold get_current_score
    rw [if_pos h]
  · intro h m hm
    unfold get_current_score ml_score
    rw [if_neg (by omega), hm]
    exact ⟨rfl, extract_features_length p⟩
  · intro h hm
    unfold get_current_score ml_score
    rw [if_neg (by omega), hm]

/-- C2: recording an accepted rating `r` sets the entity's score to
`round(w*r + (1-w)*previous)`, where the weight is 0.7 exactly while the
feedback store (including the record just written) holds fewer than 30
records and 0.5 afterwards. -/
theorem feedback_blending (fb : List Feedback) (p : Player) (r : ℚ)
    (hr : r ∈ ({1, 2, 3, 4} : Set ℚ)) :
    (record_feedback fb p r).1.length = fb.length + 1
    ∧ (record_feedback fb p r).2.1.difficulty_score =
        (pyRound (blendWeight (fb.length + 1) * r
          + (1 - blendWeight (fb.length + 1)) * p.difficulty_score) : ℚ)
    ∧ (fb.length + 1 < 30 → blendWeight (fb.length + 1) = 7/10)
    ∧ (30 ≤ fb.length + 1 → blendWeight (fb.length + 1) = 1/2) := by
  refine ⟨by simp [record_feedback], ?_, ?_, ?_⟩
  · show (pyRound (blendWeight (fb ++ [mkFeedback p r]).length * r
      + (1 - blendWeight (fb ++ [mkFeedback p r]).length) * p.difficulty_score) : ℚ) = _
    simp
  · intro h
    unfold blendWeight
    rw [if_pos h]
  · intro h
    unfold blendWeight
    rw [if_neg (by omega)]
    norm_num

/-- C3: a retrain (with its subsequent bulk recompute) fires immediately
after recording a feedback event if and only if the resulting feedback
count is a positive multiple of 10; whenever it fires, `train_model`'s
minimum-data guard also passes. -/
theorem retrain_trigger (fb : List Feedback) (p : Player) (r : ℚ) :
    ((record_feedback fb p r).2.2 = true ↔
      ∃ k : ℕ, 0 < k ∧ (record_feedback fb p r).1.length = 10 * k)
    ∧ (record_feedback fb p r).1.length = fb.length + 1
    ∧ ((record_feedback fb p r).2.2 = true →
        train_model_proceeds (record_feedback fb p r).1 = true) := by
  have hlen : (record_feedback fb p r).1.length = fb.length + 1 := by
    simp [record_feedback]
  have hflag : (record_feedback fb p r).2.2 = ((fb.length + 1) % 10 == 0) := by
    simp [record_feedback]
  refine ⟨?_, hlen, ?_⟩
  · rw [hflag, hlen]
    constructor
    · intro h
      have h0 : (fb.length + 1) % 10 = 0 := by simpa using h
      exact ⟨(fb.length + 1) / 10, by omega, by omega⟩
    · rintro ⟨k, hk, he⟩
      simp only [beq_iff_eq]
      omega
  · intro h
    rw [hflag] at h
    have h0 : (fb.length + 1) % 10 = 0 := by simpa using h
    unfold train_model_proceeds
    rw [hlen]
    simp only [Bool.not_eq_true', decide_eq_false_iff_not, not_lt]
    omega

/-- C10: the score-range invariant: starting from a score in [1, 4], both
update paths — per-feedback blending with a rating in {1,2,3,4}, and the
bulk refresh that overwrites scores with `get_current_score` — produce an
integer score in {1, 2, 3, 4}. -/
theorem score_range_invariant :
    (∀ (fb : List Feedback) (p : Player) (r : ℚ),
      1 ≤ p.difficulty_score → p.difficulty_score ≤ 4 →
      r ∈ ({1, 2, 3, 4} : Set ℚ) →
      (record_feedback fb p r).2.1.difficulty_score ∈ ({1, 2, 3, 4} : Set ℚ))
    ∧ ∀ (players : List Player) (fb : List Feedback) (model : Option Model),
        ∀ q ∈ update_all_difficulty_scores players fb model,
          q.difficulty_score ∈ ({1, 2, 3, 4} : Set ℚ) := by
  constructor
  · intro fb p r hp1 hp4 hr
    have hr1 : 1 ≤ r ∧ r ≤ 4 := by
      rcases hr with h | h | h | h <;> rw [h] <;> norm_num
    show (pyRound (blendWeight (fb ++ [mkFeedback p r]).length * r
      + (1 - blendWeight (fb ++ [mkFeedback p r]).length) * p.difficulty_score) : ℚ) ∈ _
    set w := blendWeight (fb ++ [mkFeedback p r]).length with hw
    have hwb : 0 ≤ w ∧ w ≤ 1 := by
      rw [hw]; unfold blendWeight; split_ifs <;> norm_num
    apply pyRound_mem
    · nlinarith [hwb.1, hwb.2, hr1.1, hr1.2, hp1, hp4]
    · nlinarith [hwb.1, hwb.2, hr1.1, hr1.2, hp1, hp4]
  · intro players fb model q hq
    unfold update_all_difficulty_scores at hq
    rcases List.mem_map.mp hq with ⟨p, _, rfl⟩
    exact get_current_score_mem fb model p

/-! ### Witness instantiations at concrete inputs -/

/-- Witness for C1: concrete routing at 0 records, and at 15 records with
and without a trained model. -/
theorem get_current_score_routing_witness :
    get_current_score [] none samplePlayer = rule_based_score samplePlayer
    ∧ (get_current_score fifteenFeedback (some constModel) samplePlayer =
        (pyRound (max 1 (min 4 (constModel (extract_features samplePlayer)))) : ℚ)
      ∧ (extract_features samplePlayer).length = 18)
    ∧ get_current_score fifteenFeedback none samplePlayer =
        rule_based_score samplePlayer :=
  ⟨(get_current_score_routing [] none samplePlayer).1 (by simp),
   (get_current_score_routing fifteenFeedback (some constModel) samplePlayer).2.1
     (by simp [fifteenFeedback]) constModel rfl,
   (get_current_score_routing fifteenFeedback none samplePlayer).2.2
     (by simp [fifteenFeedback]) rfl⟩

/-- Witness for C2: the spec's worked example — weight 0.7, rating 4,
previous score 2 — yields 3. -/
theorem feedback_blending_witness :
    (record_feedback [] (namedPlayer "mid" 2) 4).2.1.difficulty_score = 3 := by
  have h := (feedback_blending [] (namedPlayer "mid" 2) 4 (by norm_num)).2.1
  rw [h]
  norm_num [blendWeight, namedPlayer, samplePlayer, pyRound]

/-- Witness for C3: recording onto stores of 8, 9 and 10 records (resulting
counts 9, 10, 11) fires only at 10, where the training guard also passes. -/
theorem retrain_trigger_witness :
    (record_feedback (List.replicate 9 (mkFeedback samplePlayer 2))
      samplePlayer 2).2.2 = true
    ∧ (record_feedback (List.replicate 10 (mkFeedback samplePlayer 2))
      samplePlayer 2).2.2 = false
    ∧ (record_feedback (List.replicate 8 (mkFeedback samplePlayer 2))
      samplePlayer 2).2.2 = false
    ∧ train_model_proceeds
        (record_feedback (List.replicate 9 (mkFeedback samplePlayer 2))
          samplePlayer 2).1 = true := by
  have h9 := retrain_trigger (List.replicate 9 (mkFeedback samplePlayer 2)) samplePlayer 2
  have h10 := retrain_trigger (List.replicate 10 (mkFeedback samplePlayer 2)) samplePlayer 2
  have h8 := retrain_trigger (List.replicate 8 (mkFeedback samplePlayer 2)) samplePlayer 2
  have hfire : (record_feedback (List.replicate 9 (mkFeedback samplePlayer 2))
      samplePlayer 2).2.2 = true :=
    h9.1.mpr ⟨1, by norm_num, by rw [h9.2.1]; simp⟩
  refine ⟨hfire, ?_, ?_, h9.2.2 hfire⟩
  · cases hb : (record_feedback (List.replicate 10 (mkFeedback samplePlayer 2))
        samplePlayer 2).2.2 with
    | false => rfl
    | true =>
        rcases h10.1.mp hb with ⟨k, hk, hlen⟩
        rw [h10.2.1] at hlen
        simp at hlen
        omega
  · cases hb : (record_feedback (List.replicate 8 (mkFeedback samplePlayer 2))
        samplePlayer 2).2.2 with
    | false => rfl
    | true =>
        rcases h8.1.mp hb with ⟨k, hk, hlen⟩
        rw [h8.2.1] at hlen
        simp at hlen
        omega

/-- Witness for C5: with actual-rating counts 1 ↦ 5, 2 ↦ 2, 3 ↦ 5, 4 ↦ 5
and candidates in category 2, every draw comes from category 2's pool. -/
theorem early_sampler_policy_witness :
    (∃ q, get_next_player_to_rate samplePool sampleFeedback 0 = some q ∧
       q ∈ difficultyBucket (unratedPlayers samplePool sampleFeedback) 2)
    ∧ ∀ x ∈ difficultyBucket (unratedPlayers samplePool sampleFeedback) 2,
       ∃ pk, get_next_player_to_rate samplePool sampleFeedback pk = some x := by
  apply early_sampler_policy samplePool sampleFeedback 0 2
  · norm_num [sampleFeedback]
  · norm_num
  · norm_num [difficultyBucket, unratedPlayers, ratedNames, samplePool,
      sampleFeedback, mkFeedback, namedPlayer, samplePlayer,
      predictedCategory, pyRound]
    decide
  · intro e he hne
    fin_cases he
    · exfalso
      apply hne
      norm_num [difficultyBucket, unratedPlayers, ratedNames, samplePool,
        sampleFeedback, mkFeedback, namedPlayer, samplePlayer,
        predictedCategory, pyRound]
    · exact Or.inr ⟨rfl, le_rfl⟩
    · refine Or.inl ?_
      norm_num [actualDist, sampleFeedback, mkFeedback, namedPlayer,
        samplePlayer, pyTrunc]
    · refine Or.inl ?_
      norm_num [actualDist, sampleFeedback, mkFeedback, namedPlayer,
        samplePlayer, pyTrunc]

/-- Witness for C6 at the concrete pool and feedback store. -/
theorem sampler_domain_and_exhaustion_witness :
    (get_next_player_to_rate samplePool sampleFeedback 0 = none ↔
      ∀ p ∈ samplePool, p.player_name ∈ ratedNames sampleFeedback)
    ∧ ∀ q, get_next_player_to_rate samplePool sampleFeedback 0 = some q →
        q ∈ samplePool ∧ ∀ f ∈ sampleFeedback,
          f.player.player_name ≠ q.player_name := by
  apply sampler_domain_and_exhaustion samplePool sampleFeedback 0
  intro f hf
  fin_cases hf <;> norm_num [mkFeedback, namedPlayer, samplePlayer, pyTrunc]

/-- Witness for C8: raising the All-Pro count from 0 to 2 does not lower
the sample player's rule-based score. -/
theorem rule_scorer_monotone_primary_honors_witness :
    rule_based_score { samplePlayer with all_pros := 0 } ≤
      rule_based_score { samplePlayer with all_pros := 2 } :=
  rule_scorer_monotone_primary_honors samplePlayer 0 2 (by norm_num)

/-- Witness for C9: ratio feature at zero games played, and at 98 of 100. -/
theorem games_started_ratio_safe_witness :
    (extract_features { samplePlayer with games_played := 0 }).getLast? = some 0
    ∧ (extract_features samplePlayer).getLast? =
        some ((samplePlayer.games_started : ℚ) / (samplePlayer.games_played : ℚ)) :=
  ⟨(games_started_ratio_safe { samplePlayer with games_played := 0 }).1 rfl,
   (games_started_ratio_safe samplePlayer).2 (by norm_num [samplePlayer])⟩

/-- Witness for C10: both update paths at concrete inputs. -/
theorem score_range_invariant_witness :
    (record_feedback [] (namedPlayer "mid" 2) 4).2.1.difficulty_score ∈
      ({1, 2, 3, 4} : Set ℚ)
    ∧ ({ namedPlayer "u1" 2 with
        difficulty_score := get_current_score [] none (namedPlayer "u1" 2)
          }).difficulty_score ∈ ({1, 2, 3, 4} : Set ℚ) :=
  ⟨score_range_invariant.1 [] (namedPlayer "mid" 2) 4
    (by norm_num [namedPlayer, samplePlayer])
    (by norm_num [namedPlayer, samplePlayer])
    (by norm_num),
   score_range_invariant.2 samplePool [] none _
    (List.mem_map.mpr ⟨namedPlayer "u1" 2, by simp [samplePool], rfl⟩)⟩

end NFLRanking
